import Mathlib

set_option maxRecDepth 16384

/-!
Verification of the LaTeX-converter plugin (`src/main.ts`) against its
natural-language specification.

The development shallowly embeds the plugin's logic:
  * `jsonParse` models `JSON.parse` (ECMA-404 grammar, duplicate keys kept in
    order with last-binding lookup, `\u` escapes including surrogate pairs);
  * `sanitizedInput`, `buildPrompt` model the input escaping and the
    `String.prototype.replace` call (including ECMAScript `$`-substitution
    patterns in the replacement string);
  * `callLocalLLM` models the streaming read loop: each read chunk is decoded,
    split on newlines, blank lines dropped, each line parsed as JSON and its
    `response` field accumulated; errors are modelled with `Except` carrying
    the thrown `Error` message;
  * `handleError` models the substring-based error classification;
  * `convertToLatex` models the command as the list of observable editor/UI
    effects it performs, in order.
-/

/-- Syntactic pieces of a JSON number token, as accepted by the grammar
(sign, integer digits, optional fraction digits, optional exponent).
The IEEE-754 value and the JS float-to-string rendering are not modelled;
no claim depends on them. -/
structure JsonNumber where
  neg : Bool
  intDigits : List Char
  fracDigits : List Char
  expNeg : Bool
  expDigits : List Char
deriving DecidableEq

/-- JSON values produced by `JSON.parse`.  Object fields are kept in textual
order; duplicate keys are resolved by `lookupLast` (last binding wins, as in
JavaScript). -/
inductive Json where
  | null
  | bool (b : Bool)
  | num (n : JsonNumber)
  | str (s : String)
  | arr (elems : List Json)
  | obj (fields : List (String × Json))

/-- JSON insignificant whitespace (space, tab, line feed, carriage return). -/
def isJsonWs (c : Char) : Bool :=
  c == ' ' || c == '\t' || c == '\n' || c == '\r'

/-- Drop leading JSON whitespace. -/
def skipWs (l : List Char) : List Char :=
  l.dropWhile isJsonWs

/-- Value of a hexadecimal digit, if the character is one. -/
def hexVal (c : Char) : Option Nat :=
  if '0' ≤ c ∧ c ≤ '9' then some (c.toNat - '0'.toNat)
  else if 'a' ≤ c ∧ c ≤ 'f' then some (c.toNat - 'a'.toNat + 10)
  else if 'A' ≤ c ∧ c ≤ 'F' then some (c.toNat - 'A'.toNat + 10)
  else none

/-- Parse the body of a JSON string literal (the opening quote already
consumed), returning the decoded characters and the remaining input.
Handles the JSON escapes and `\u` sequences, combining surrogate pairs into
one scalar value; a lone surrogate (not representable in a Lean `Char`)
degrades to NUL.  Unescaped control characters are rejected, as in
`JSON.parse`.  Fuel-indexed for structural termination; each step consumes at
least one input character, so fuel `length + 1` always suffices. -/
def parseStrArm : Nat → List Char → Option (List Char × List Char)
  | 0, _ => none
  | Nat.succ _, [] => none
  | Nat.succ fuel, c :: rest =>
    if c == '"' then some ([], rest)
    else if c == '\\' then
      match rest with
      | [] => none
      | e :: rest2 =>
        if e == '"' then (parseStrArm fuel rest2).map (fun p => ('"' :: p.1, p.2))
        else if e == '\\' then (parseStrArm fuel rest2).map (fun p => ('\\' :: p.1, p.2))
        else if e == '/' then (parseStrArm fuel rest2).map (fun p => ('/' :: p.1, p.2))
        else if e == 'b' then (parseStrArm fuel rest2).map (fun p => (Char.ofNat 8 :: p.1, p.2))
        else if e == 'f' then (parseStrArm fuel rest2).map (fun p => (Char.ofNat 12 :: p.1, p.2))
        else if e == 'n' then (parseStrArm fuel rest2).map (fun p => ('\n' :: p.1, p.2))
        else if e == 'r' then (parseStrArm fuel rest2).map (fun p => ('\r' :: p.1, p.2))
        else if e == 't' then (parseStrArm fuel rest2).map (fun p => ('\t' :: p.1, p.2))
        else if e == 'u' then
          match rest2 with
          | h1 :: h2 :: h3 :: h4 :: rest3 =>
            match hexVal h1, hexVal h2, hexVal h3, hexVal h4 with
            | some a, some b, some c2, some d =>
              let code := ((a * 16 + b) * 16 + c2) * 16 + d
              if 0xD800 ≤ code ∧ code ≤ 0xDBFF then
                match rest3 with
                | '\\' :: 'u' :: g1 :: g2 :: g3 :: g4 :: rest4 =>
                  match hexVal g1, hexVal g2, hexVal g3, hexVal g4 with
                  | some w, some x, some y, some z =>
                    let lo := ((w * 16 + x) * 16 + y) * 16 + z
                    if 0xDC00 ≤ lo ∧ lo ≤ 0xDFFF then
                      (parseStrArm fuel rest4).map
                        (fun p => (Char.ofNat (0x10000 + (code - 0xD800) * 0x400 + (lo - 0xDC00)) :: p.1, p.2))
                    else (parseStrArm fuel rest3).map (fun p => (Char.ofNat code :: p.1, p.2))
                  | _, _, _, _ => (parseStrArm fuel rest3).map (fun p => (Char.ofNat code :: p.1, p.2))
                | _ => (parseStrArm fuel rest3).map (fun p => (Char.ofNat code :: p.1, p.2))
              else (parseStrArm fuel rest3).map (fun p => (Char.ofNat code :: p.1, p.2))
            | _, _, _, _ => none
          | _ => none
        else none
    else if c.toNat < 0x20 then none
    else (parseStrArm fuel rest).map (fun p => (c :: p.1, p.2))

/-- Parse a JSON string body with adequate fuel. -/
def parseStrBody (l : List Char) : Option (List Char × List Char) :=
  parseStrArm (l.length + 1) l

/-- Split a run of decimal digits off the front of the input. -/
def digitsTake (l : List Char) : List Char × List Char :=
  (l.takeWhile Char.isDigit, l.dropWhile Char.isDigit)

/-- Parse the exponent digits of a number (after `e`/`E`), with optional sign. -/
def parseExpDigits (neg : Bool) (ip fd : List Char) (l : List Char) :
    Option (JsonNumber × List Char) :=
  let p := match l with
    | '+' :: r2 => (false, r2)
    | '-' :: r2 => (true, r2)
    | _ => (false, l)
  let q := digitsTake p.2
  if q.1.isEmpty then none else some (⟨neg, ip, fd, p.1, q.1⟩, q.2)

/-- Parse an optional exponent part of a number. -/
def parseExpAfter (neg : Bool) (ip fd : List Char) (l : List Char) :
    Option (JsonNumber × List Char) :=
  match l with
  | 'e' :: r => parseExpDigits neg ip fd r
  | 'E' :: r => parseExpDigits neg ip fd r
  | _ => some (⟨neg, ip, fd, false, []⟩, l)

/-- Parse a JSON number token: optional minus, integer part (`0` or a
non-zero-leading digit run), optional fraction, optional exponent. -/
def parseNum (input : List Char) : Option (JsonNumber × List Char) :=
  let s := match input with
    | '-' :: r => (true, r)
    | _ => (false, input)
  match s.2 with
  | [] => none
  | d :: _ =>
    if d.isDigit then
      let ipr : List Char × List Char :=
        if d == '0' then (['0'], s.2.drop 1) else digitsTake s.2
      match ipr.2 with
      | '.' :: r3 =>
        let fr := digitsTake r3
        if fr.1.isEmpty then none else parseExpAfter s.1 ipr.1 fr.1 fr.2
      | r2 => parseExpAfter s.1 ipr.1 [] r2
    else none

/-- Left brace character (written numerically for quoting robustness). -/
def lbrace : Char := Char.ofNat 123

/-- Right brace character. -/
def rbrace : Char := Char.ofNat 125

/-- Parser work items: a value, the continuation of an array after its first
element, or the continuation of an object after its first member. -/
inductive PTask where
  | value
  | arrTail (acc : List Json)
  | objTail (acc : List (String × Json))

/-- Recursive-descent JSON parser, fuel-indexed for structural termination.
Follows the `JSON.parse` grammar; returns the parsed value and remaining
input. -/
def parseP : Nat → PTask → List Char → Option (Json × List Char)
  | 0, _, _ => none
  | Nat.succ fuel, PTask.value, input =>
    match skipWs input with
    | 'n' :: 'u' :: 'l' :: 'l' :: rest => some (Json.null, rest)
    | 't' :: 'r' :: 'u' :: 'e' :: rest => some (Json.bool true, rest)
    | 'f' :: 'a' :: 'l' :: 's' :: 'e' :: rest => some (Json.bool false, rest)
    | '"' :: rest => (parseStrBody rest).map (fun p => (Json.str (String.mk p.1), p.2))
    | '[' :: rest =>
      (match skipWs rest with
       | ']' :: rest2 => some (Json.arr [], rest2)
       | _ =>
         match parseP fuel PTask.value rest with
         | some (v, rest2) => parseP fuel (PTask.arrTail [v]) rest2
         | none => none)
    | c :: rest =>
      if c == lbrace then
        match skipWs rest with
        | '"' :: rest2 =>
          (match parseStrBody rest2 with
           | some (key, rest3) =>
             (match skipWs rest3 with
              | ':' :: rest4 =>
                (match parseP fuel PTask.value rest4 with
                 | some (v, rest5) => parseP fuel (PTask.objTail [(String.mk key, v)]) rest5
                 | none => none)
              | _ => none)
           | none => none)
        | c2 :: rest2 => if c2 == rbrace then some (Json.obj [], rest2) else none
        | [] => none
      else (parseNum (c :: rest)).map (fun p => (Json.num p.1, p.2))
    | [] => none
  | Nat.succ fuel, PTask.arrTail acc, input =>
    match skipWs input with
    | ']' :: rest => some (Json.arr acc, rest)
    | ',' :: rest =>
      (match parseP fuel PTask.value rest with
       | some (v, rest2) => parseP fuel (PTask.arrTail (acc ++ [v])) rest2
       | none => none)
    | _ => none
  | Nat.succ fuel, PTask.objTail acc, input =>
    match skipWs input with
    | ',' :: rest =>
      (match skipWs rest with
       | '"' :: rest2 =>
         (match parseStrBody rest2 with
          | some (key, rest3) =>
            (match skipWs rest3 with
             | ':' :: rest4 =>
               (match parseP fuel PTask.value rest4 with
                | some (v, rest5) => parseP fuel (PTask.objTail (acc ++ [(String.mk key, v)])) rest5
                | none => none)
             | _ => none)
          | none => none)
       | _ => none)
    | c :: rest => if c == rbrace then some (Json.obj acc, rest) else none
    | [] => none

/-- Model of `JSON.parse`: parse one value, allow surrounding whitespace,
reject trailing input; `none` models a thrown `SyntaxError`.  The fuel
`2 * length + 4` dominates the number of recursive-descent steps, each of
which consumes input. -/
def jsonParse (s : String) : Option Json :=
  match parseP (2 * s.toList.length + 4) PTask.value s.toList with
  | some (v, rest) => if (skipWs rest).isEmpty then some v else none
  | none => none

/-- Last binding of a key in an object's field list, modelling JavaScript
property semantics where a duplicate key in a JSON text overwrites the
earlier one; `none` models `undefined`. -/
def lookupLast (fields : List (String × Json)) (key : String) : Option Json :=
  fields.foldl (fun acc kv => if kv.1 == key then some kv.2 else acc) none

/-- JavaScript property access `v.key` as performed by `data.response`:
reading a property of `null` throws a `TypeError` (modelled as `.error ()`);
an object yields its binding or `undefined`; every other value (primitive or
array) yields `undefined` for this property. -/
def jsMember : Json → String → Except Unit (Option Json)
  | Json.null, _ => Except.error ()
  | Json.obj fields, key => Except.ok (lookupLast fields key)
  | _, _ => Except.ok none

/-- Truthiness of `data.response` in the `if (data.response)` test:
`undefined`, `null`, `false`, zero and the empty string are falsy.
The numeric zero test is syntactic (all mantissa digits zero): an
underflowing literal such as `1e-400`, whose IEEE-754 value is `0` and hence
falsy in JS, counts as truthy here; no settled claim depends on numeric
`response` fields, which would require the float semantics this development
does not model. -/
def jsTruthy : Option Json → Bool
  | none => false
  | some Json.null => false
  | some (Json.bool b) => b
  | some (Json.num n) => !(n.intDigits.all (fun c => c == '0') && n.fracDigits.all (fun c => c == '0'))
  | some (Json.str s) => s != ""
  | some (Json.arr _) => true
  | some (Json.obj _) => true

/-- Syntactic rendering of a parsed number (JS float formatting is not
modelled; no claim depends on it). -/
def jsNumRender (n : JsonNumber) : String :=
  String.mk ((cond n.neg ['-'] []) ++ n.intDigits ++
    (if n.fracDigits.isEmpty then [] else '.' :: n.fracDigits) ++
    (if n.expDigits.isEmpty then [] else 'e' :: (cond n.expNeg ['-'] []) ++ n.expDigits))

/-- Join strings with comma separators (JS `Array.prototype.toString`). -/
def commaJoin : List String → String
  | [] => ""
  | [s] => s
  | s :: rest => s ++ "," ++ commaJoin rest

mutual

/-- String coercion of a JSON value, as performed by JS string conversion.
Inside an array, `null` renders as the empty string, as in JS. -/
def jsonToStr : Json → String
  | Json.null => "null"
  | Json.bool b => cond b "true" "false"
  | Json.num n => jsNumRender n
  | Json.str s => s
  | Json.obj _ => "[object Object]"
  | Json.arr es => jsonArrToStr es

/-- Elements of an array joined with commas (`Array.prototype.toString`). -/
def jsonArrToStr : List Json → String
  | [] => ""
  | [Json.null] => ""
  | [e] => jsonToStr e
  | Json.null :: es => "," ++ jsonArrToStr es
  | e :: es => jsonToStr e ++ "," ++ jsonArrToStr es

end

/-- String coercion applied by `latexEquation += data.response`. -/
def jsDisplay : Option Json → String
  | none => "undefined"
  | some j => jsonToStr j

/-- JavaScript whitespace as trimmed by `String.prototype.trim` (ASCII
whitespace, NBSP, BOM and the Unicode space separators). -/
def isJsSpace (c : Char) : Bool :=
  c == ' ' || c == '\t' || c == '\n' || c == '\r' ||
  c == Char.ofNat 11 || c == Char.ofNat 12 || c == Char.ofNat 160 ||
  c == Char.ofNat 0x1680 || (0x2000 ≤ c.toNat && c.toNat ≤ 0x200a) ||
  c == Char.ofNat 0x2028 || c == Char.ofNat 0x2029 || c == Char.ofNat 0x202f ||
  c == Char.ofNat 0x205f || c == Char.ofNat 0x3000 || c == Char.ofNat 0xfeff

/-- Model of `String.prototype.trim`. -/
def jsTrim (s : String) : String :=
  String.mk (((s.toList.dropWhile isJsSpace).reverse.dropWhile isJsSpace).reverse)

/-- Split a character list at every occurrence of `sep`, keeping empty
segments, as `String.prototype.split` does with a one-character separator. -/
def splitChar (sep : Char) : List Char → List (List Char)
  | [] => [[]]
  | c :: rest =>
    let r := splitChar sep rest
    if c == sep then [] :: r
    else
      match r with
      | h :: t => (c :: h) :: t
      | [] => [[c]]

/-- Decoded text of one read, split on newlines with blank (whitespace-only)
lines dropped: `chunk.split("\n").filter((line) => line.trim() !== "")`. -/
def nonBlankLines (chunk : String) : List String :=
  ((splitChar '\n' chunk.toList).map String.mk).filter (fun line => jsTrim line != "")

/-- All retained lines of a stream, in chunk-arrival order. -/
def allLines : List String → List String
  | [] => []
  | c :: cs => nonBlankLines c ++ allLines cs

/-- Message of the error thrown when a line cannot be handled:
`"Failed to parse response from Ollama"`. -/
def parseFailMsg : String := "Failed to parse response from Ollama"

/-- Model of the per-line body of the read loop: `JSON.parse(line)` followed
by `if (data.response) latexEquation += data.response`, where the inner
`catch` converts any exception (a `SyntaxError` from `JSON.parse` or a
`TypeError` from `data.response` on `null`) into the parse-failure error. -/
def processLine (acc : String) (line : String) : Except String String :=
  match jsonParse line with
  | none => Except.error parseFailMsg
  | some data =>
    match jsMember data ("response") with
    | Except.error _ => Except.error parseFailMsg
    | Except.ok v => if jsTruthy v then Except.ok (acc ++ jsDisplay v) else Except.ok acc

/-- Run the for-loop over the retained lines of one chunk, threading the
accumulator; a thrown error aborts. -/
def runLines (acc : String) : List String → Except String String
  | [] => Except.ok acc
  | l :: ls =>
    match processLine acc l with
    | Except.error e => Except.error e
    | Except.ok acc2 => runLines acc2 ls

/-- Run the while-loop over the reads of the stream. -/
def runChunks (acc : String) : List String → Except String String
  | [] => Except.ok acc
  | c :: cs =>
    match runLines acc (nonBlankLines c) with
    | Except.error e => Except.error e
    | Except.ok acc2 => runChunks acc2 cs

/-- The observable part of the `fetch` response: the HTTP status code and the
body as the list of decoded texts of the successive reads (`none` models a
`null` body, whose missing reader raises the unreadable-stream error). -/
structure HttpResponse where
  status : Nat
  body : Option (List String)

/-- The Fetch API `Response.ok` flag: status in the inclusive range 200-299. -/
def responseOk (status : Nat) : Bool :=
  200 ≤ status && status ≤ 299

/-- Persisted plugin settings. -/
structure LatexConverterSettings where
  ollamaModel : String
  llmPrompt : String
  keepAlive : String

/-- The `DEFAULT_SETTINGS` constant of the plugin. -/
def DEFAULT_SETTINGS : LatexConverterSettings :=
  ⟨"llama2",
   "Convert the following natural language to a LaTeX equation, output ONLY THE EQUATION AND NOTHING ELSE: \"\x7binput\x7d\". Output should be in this format: $\x7boutput\x7d$",
   "5m"⟩

/-- Replace every occurrence of a single character, the semantics of the
global single-character regex replaces `/\\/g` and `/"/g` (their replacement
strings contain no `$` patterns, so each match is replaced by the literal
replacement). -/
def replaceChar (target : Char) (repl : List Char) : List Char → List Char
  | [] => []
  | c :: cs => (if c = target then repl else [c]) ++ replaceChar target repl cs

/-- The sanitization step:
`input.replace(/\\/g, "\\\\").replace(/"/g, '\\"')` — every backslash is
doubled first, then every double quote is prefixed with a backslash. -/
def sanitizedInput (input : String) : String :=
  String.mk (replaceChar '"' ['\\', '"'] (replaceChar '\\' ['\\', '\\'] input.toList))

/-- Leftmost occurrence of `pat` in a list: the segments before and after it,
or `none` when it does not occur. -/
def startsWithList : List Char → List Char → Bool
  | [], _ => true
  | _ :: _, [] => false
  | p :: ps, c :: cs => p == c && startsWithList ps cs

/-- Split at the leftmost occurrence of `pat`. -/
def findSplit (pat : List Char) : List Char → Option (List Char × List Char)
  | [] => if pat.isEmpty then some ([], []) else none
  | c :: cs =>
    if startsWithList pat (c :: cs) then some ([], (c :: cs).drop pat.length)
    else
      match findSplit pat cs with
      | some p => some (c :: p.1, p.2)
      | none => none

/-- ECMAScript `GetSubstitution` for a string search value with no capture
groups: in the replacement string, `$$` yields `$`, `$&` the matched text,
a `$` followed by a backquote the text before the match, `$` followed by an
apostrophe the text after it; any other `$` is literal. -/
def getSubstitution (matched before after : List Char) : List Char → List Char
  | [] => []
  | c :: rest =>
    if c = '$' then
      match rest with
      | [] => ['$']
      | d :: rest2 =>
        if d = '$' then '$' :: getSubstitution matched before after rest2
        else if d = '&' then matched ++ getSubstitution matched before after rest2
        else if d = Char.ofNat 96 then before ++ getSubstitution matched before after rest2
        else if d = Char.ofNat 39 then after ++ getSubstitution matched before after rest2
        else '$' :: getSubstitution matched before after (d :: rest2)
    else c :: getSubstitution matched before after rest

/-- `String.prototype.replace` with a string pattern: replaces only the first
occurrence, applying `GetSubstitution` to the replacement string. -/
def jsReplaceFirst (s pat repl : String) : String :=
  match findSplit pat.toList s.toList with
  | none => s
  | some p => String.mk (p.1 ++ getSubstitution pat.toList p.1 p.2 repl.toList ++ p.2)

/-- Literal first-occurrence substitution (what the spec describes): the
replacement text is inserted verbatim, with no `$`-pattern interpretation. -/
def substFirst (s pat repl : String) : String :=
  match findSplit pat.toList s.toList with
  | none => s
  | some p => String.mk (p.1 ++ repl.toList ++ p.2)

/-- The prompt sent to the model:
`this.settings.llmPrompt.replace("{input}", sanitizedInput)`. -/
def buildPrompt (settings : LatexConverterSettings) (input : String) : String :=
  jsReplaceFirst settings.llmPrompt ("\x7binput\x7d") (sanitizedInput input)

/-- The JSON body of the POST request (its serialization is irrelevant to the
claims, so the request is kept as a record). -/
structure OllamaRequest where
  model : String
  prompt : String
  stream : Bool
  keep_alive : String

/-- The request `callLocalLLM` posts to `http://localhost:11434/api/generate`. -/
def buildRequest (settings : LatexConverterSettings) (input : String) : OllamaRequest :=
  ⟨settings.ollamaModel, buildPrompt settings input, true, settings.keepAlive⟩

/-- Result of `callLocalLLM` past the `fetch`: a non-ok status throws
`"HTTP error! status: <code>"` before the body is touched; a missing body
reader throws `"Unable to read response from Ollama"`; otherwise the chunks
are accumulated and the final string trimmed.  The outer `try/catch` only
logs and rethrows, so it is the identity on the error. -/
def callLocalLLM (settings : LatexConverterSettings) (input : String)
    (resp : HttpResponse) : Except String String :=
  if responseOk resp.status then
    match resp.body with
    | none => Except.error ("Unable to read response from Ollama")
    | some chunks =>
      match runChunks "" chunks with
      | Except.error e => Except.error e
      | Except.ok acc => Except.ok (jsTrim acc)
  else Except.error ("HTTP error! status: " ++ toString resp.status)

/-- A value caught by `catch (error)`: an `Error` carrying a message, or any
non-`Error` value. -/
inductive CaughtValue where
  | jsError (message : String)
  | nonError

/-- Whether `needle` occurs contiguously in the list. -/
def containsSeq (needle : List Char) : List Char → Bool
  | [] => needle.isEmpty
  | c :: cs => startsWithList needle (c :: cs) || containsSeq needle cs

/-- JS `String.prototype.includes`: `sub` occurs contiguously in `s`. -/
def jsIncludes (s sub : String) : Bool :=
  containsSeq sub.toList s.toList

/-- The error reporter `handleError`: first matching substring wins, and a
non-`Error` value keeps the initial generic message. -/
def handleError : CaughtValue → String
  | CaughtValue.nonError => "An unexpected error occurred while converting to LaTeX."
  | CaughtValue.jsError msg =>
    if jsIncludes msg ("HTTP error") then
      "Failed to connect to Ollama. Please ensure Ollama is running and accessible at http://localhost:11434. Error: " ++ msg
    else if jsIncludes msg ("Failed to parse response") then
      "Received an invalid response from Ollama. The model might be having issues. Error: " ++ msg
    else if jsIncludes msg ("Unable to read response") then
      "Failed to read the response from Ollama. The connection might have been interrupted. Error: " ++ msg
    else "Error converting to LaTeX: " ++ msg

/-- Observable editor/UI actions of the conversion command, in order.
A notice with timeout 0 is persistent; `hideNotice` hides the persistent
loading notice. -/
inductive Effect where
  | notice (message : String) (timeoutMs : Nat)
  | httpRequest (req : OllamaRequest)
  | replaceSelection (text : String)
  | hideNotice

/-- The conversion command `convertToLatex` as its trace of effects: an empty
selection (the only falsy string) shows a transient notice and returns; a
non-empty selection shows the persistent loading notice, issues the request,
then either replaces the selection and shows the success notice or shows the
message produced by `handleError`, and in both cases hides the loading notice
in the `finally` block. -/
def convertToLatex (settings : LatexConverterSettings) (selection : String)
    (resp : HttpResponse) : List Effect :=
  if selection == "" then
    [Effect.notice ("No text selected. Please select the text you want to convert to LaTeX.") 5000]
  else
    Effect.notice ("Converting to LaTeX...") 0 ::
    Effect.httpRequest (buildRequest settings selection) ::
    ((match callLocalLLM settings selection resp with
      | Except.ok latexEquation =>
        [Effect.replaceSelection latexEquation,
         Effect.notice ("Successfully converted to LaTeX!") 3000]
      | Except.error e =>
        [Effect.notice (handleError (CaughtValue.jsError e)) 10000]) ++
     [Effect.hideNotice])

/-- Concatenation of a list of strings in order. -/
def joinAll : List String → String
  | [] => ""
  | s :: ss => s ++ joinAll ss

/-- The text a line contributes to the accumulated result per the spec: the
`response` field of the line parsed as a JSON object, when that field is
present and a string; otherwise nothing. -/
def respString (line : String) : String :=
  match jsonParse line with
  | some (Json.obj fields) =>
    match lookupLast fields ("response") with
    | some (Json.str s) => s
    | _ => ""
  | _ => ""

/-- A well-formed stream line: it parses to a JSON object whose `response`
field is absent or a string. -/
def goodLine (line : String) : Bool :=
  match jsonParse line with
  | some (Json.obj fields) =>
    match lookupLast fields ("response") with
    | none => true
    | some (Json.str _) => true
    | some _ => false
  | _ => false

/-- Character-wise escaping described by the spec: a backslash becomes two
backslashes, a double quote becomes backslash-quote, anything else is kept. -/
def escapeChar (c : Char) : List Char :=
  if c = '\\' then ['\\', '\\']
  else if c = '"' then ['\\', '"']
  else [c]

/-- Character-wise escaping of a whole list. -/
def escAll : List Char → List Char
  | [] => []
  | c :: cs => escapeChar c ++ escAll cs


theorem strDataAppend (a b : String) : (a ++ b).toList = a.toList ++ b.toList := rfl

theorem strAppendAssoc (a b c : String) : a ++ b ++ c = a ++ (b ++ c) :=
  congrArg String.mk (List.append_assoc a.toList b.toList c.toList)

theorem strAppendEmpty (a : String) : a ++ "" = a :=
  congrArg String.mk (List.append_nil a.toList)

theorem strEmptyAppend (a : String) : "" ++ a = a := rfl

theorem processLine_good (acc line : String) (h : goodLine line = true) :
    processLine acc line = Except.ok (acc ++ respString line) := by
  unfold goodLine at h
  unfold processLine respString
  cases hp : jsonParse line with
  | none => rw [hp] at h; simp at h
  | some data =>
    rw [hp] at h
    cases data with
    | null => simp at h
    | bool b => simp at h
    | num n => simp at h
    | str s => simp at h
    | arr es => simp at h
    | obj fields =>
      simp only [] at h
      simp only [jsMember]
      cases hr : lookupLast fields ("response") with
      | none => simp [jsTruthy, strAppendEmpty]
      | some v =>
        rw [hr] at h
        cases v with
        | str s =>
          by_cases hs : s = ""
          · subst hs; simp [jsTruthy, strAppendEmpty]
          · simp [jsTruthy, bne_iff_ne, hs, jsDisplay, jsonToStr]
        | null => simp at h
        | bool b => simp at h
        | num n => simp at h
        | arr es => simp at h
        | obj fs => simp at h

theorem processLine_error_msg (acc line e : String)
    (h : processLine acc line = Except.error e) : e = parseFailMsg := by
  unfold processLine at h
  cases hp : jsonParse line with
  | none => rw [hp] at h; exact (Except.error.inj h).symm
  | some data =>
    rw [hp] at h
    cases data with
    | null => exact (Except.error.inj h).symm
    | obj fields =>
      simp only [jsMember] at h
      split at h <;> simp_all
    | bool b => simp only [jsMember] at h; split at h <;> simp_all
    | num n => simp only [jsMember] at h; split at h <;> simp_all
    | str s => simp only [jsMember] at h; split at h <;> simp_all
    | arr es => simp only [jsMember] at h; split at h <;> simp_all

theorem runLines_append (l1 l2 : List String) : ∀ acc, runLines acc (l1 ++ l2) =
    match runLines acc l1 with
    | Except.error e => Except.error e
    | Except.ok a => runLines a l2 := by
  induction l1 with
  | nil => intro acc; rfl
  | cons l ls ih =>
    intro acc
    simp only [List.cons_append, runLines]
    cases hpl : processLine acc l with
    | error e => rfl
    | ok a => exact ih a

theorem runChunks_flatten (chunks : List String) : ∀ acc,
    runChunks acc chunks = runLines acc (allLines chunks) := by
  induction chunks with
  | nil => intro acc; rfl
  | cons c cs ih =>
    intro acc
    simp only [runChunks, allLines, runLines_append]
    cases hrl : runLines acc (nonBlankLines c) with
    | error e => rfl
    | ok a => exact ih a

theorem runLines_good (lines : List String) : ∀ acc, (∀ l ∈ lines, goodLine l = true) →
    runLines acc lines = Except.ok (acc ++ joinAll (lines.map respString)) := by
  induction lines with
  | nil => intro acc _; simp [runLines, joinAll, strAppendEmpty]
  | cons l ls ih =>
    intro acc h
    have hl : goodLine l = true := h l (List.mem_cons_self l ls)
    simp only [runLines, processLine_good acc l hl]
    rw [ih (acc ++ respString l) (fun x hx => h x (List.mem_cons_of_mem l hx))]
    simp [joinAll, strAppendAssoc]

theorem runLines_bad (lines : List String) : ∀ acc, (∃ l, l ∈ lines ∧ jsonParse l = none) →
    runLines acc lines = Except.error parseFailMsg := by
  induction lines with
  | nil => intro acc h; rcases h with ⟨l, hl, _⟩; simp at hl
  | cons l ls ih =>
    intro acc h
    rcases h with ⟨l0, hmem, hparse⟩
    rcases List.mem_cons.mp hmem with h1 | h2
    · subst h1; simp [runLines, processLine, hparse]
    · cases hpl : processLine acc l with
      | error e =>
        simp only [runLines, hpl]
        rw [processLine_error_msg acc l e hpl]
      | ok a =>
        simp only [runLines, hpl]
        exact ih a ⟨l0, h2, hparse⟩

theorem startsWithList_self (l : List Char) : startsWithList l l = true := by
  induction l with
  | nil => rfl
  | cons c cs ih => simp [startsWithList, ih]

theorem containsSeq_append_self (pre n : List Char) : containsSeq n (pre ++ n) = true := by
  induction pre with
  | nil =>
    cases n with
    | nil => rfl
    | cons c cs => simp [containsSeq, startsWithList_self]
  | cons p ps ih => simp [containsSeq, ih]

theorem responseOk_true (status : Nat) (h : 200 ≤ status ∧ status ≤ 299) :
    responseOk status = true := by
  simp only [responseOk, Bool.and_eq_true, decide_eq_true_eq]
  exact h

theorem responseOk_false (status : Nat) (h : ¬(200 ≤ status ∧ status ≤ 299)) :
    responseOk status = false := by
  cases hb : responseOk status with
  | false => rfl
  | true =>
    exact absurd (by simpa [responseOk, Bool.and_eq_true, decide_eq_true_eq] using hb) h

theorem replaceChar_append (t : Char) (r l1 l2 : List Char) :
    replaceChar t r (l1 ++ l2) = replaceChar t r l1 ++ replaceChar t r l2 := by
  induction l1 with
  | nil => rfl
  | cons c cs ih => simp [replaceChar, ih]

theorem sanitize_escAll (l : List Char) :
    replaceChar '"' ['\\', '"'] (replaceChar '\\' ['\\', '\\'] l) = escAll l := by
  induction l with
  | nil => rfl
  | cons c cs ih =>
    by_cases h1 : c = '\\'
    · subst h1
      simp [replaceChar, replaceChar_append, escAll, escapeChar, ih]
    · by_cases h2 : c = '"'
      · subst h2
        simp [replaceChar, replaceChar_append, escAll, escapeChar, ih]
      · simp [replaceChar, replaceChar_append, escAll, escapeChar, h1, h2, ih]

theorem getSubstitution_no_dollar (matched before after repl : List Char)
    (h : '$' ∉ repl) : getSubstitution matched before after repl = repl := by
  induction repl with
  | nil => rfl
  | cons c cs ih =>
    rw [List.mem_cons, not_or] at h
    obtain ⟨h1, h2⟩ := h
    have hc : ¬ c = '$' := fun he => h1 he.symm
    rw [getSubstitution.eq_def]
    simp [hc, ih h2]

/-- Claim C1, counterexample: the stream consisting of the single line `null`
is successful in the claim's sense (2xx status, readable body, every
non-blank line valid JSON), yet `callLocalLLM` throws the parse-failure error
instead of returning the (empty) concatenation of `response` string fields,
because `null.response` raises a `TypeError` inside the per-line handler. -/
theorem c1_counterexample :
    jsonParse ("null") = some Json.null
    ∧ callLocalLLM DEFAULT_SETTINGS ("x") ⟨200, some ["null\n"]⟩ =
        Except.error parseFailMsg
    ∧ (Except.error parseFailMsg : Except String String) ≠
        Except.ok (jsTrim (joinAll ((allLines ["null\n"]).map respString))) :=
  ⟨rfl, rfl, fun hcontra => Except.noConfusion hcontra⟩

/-- Claim C1 (amended): for every non-empty input selection and every
successful stream (2xx status, readable body) each of whose non-blank lines
parses to a JSON object whose `response` field is absent or a string,
`callLocalLLM` returns the concatenation of the `response` string fields of
all parsed lines, in chunk-arrival order, with blank (whitespace-only) lines
discarded and the final string trimmed of leading and trailing whitespace. -/
theorem c1_accumulation (settings : LatexConverterSettings) (input : String)
    (status : Nat) (chunks : List String)
    (hsel : input ≠ "") (hok : 200 ≤ status ∧ status ≤ 299)
    (hlines : ∀ l ∈ allLines chunks, goodLine l = true) :
    callLocalLLM settings input ⟨status, some chunks⟩ =
      Except.ok (jsTrim (joinAll ((allLines chunks).map respString))) := by
  simp only [callLocalLLM, responseOk_true status hok, if_true]
  rw [runChunks_flatten]
  rw [runLines_good (allLines chunks) "" hlines]
  rw [strEmptyAppend]

/-- Claim C1 witness: a concrete two-chunk stream accumulates both `response`
fields in order. -/
theorem c1_accumulation_witness :
    callLocalLLM DEFAULT_SETTINGS ("the integral of x squared")
      ⟨200, some ["\x7b\"response\":\"a\"\x7d\n", "\x7b\"response\":\" b\"\x7d\n"]⟩ =
      Except.ok (jsTrim (joinAll ((allLines
        ["\x7b\"response\":\"a\"\x7d\n", "\x7b\"response\":\" b\"\x7d\n"]).map respString))) :=
  c1_accumulation DEFAULT_SETTINGS ("the integral of x squared") 200
    ["\x7b\"response\":\"a\"\x7d\n", "\x7b\"response\":\" b\"\x7d\n"]
    (by decide) (by decide) (by decide)

/-- Claim C2: a stream (2xx, readable) containing at least one non-blank line
that fails to parse as JSON makes `callLocalLLM` throw the parse-failure
error, the accumulated partial text is discarded, and `replaceSelection`
never appears in the command's effect trace. -/
theorem c2_fail_fast (settings : LatexConverterSettings) (input selection : String)
    (status : Nat) (chunks : List String)
    (hok : 200 ≤ status ∧ status ≤ 299)
    (hbad : ∃ l, l ∈ allLines chunks ∧ jsonParse l = none) :
    callLocalLLM settings input ⟨status, some chunks⟩ = Except.error parseFailMsg
    ∧ ∀ txt, Effect.replaceSelection txt ∉
        convertToLatex settings selection ⟨status, some chunks⟩ := by
  have key : ∀ inp : String, callLocalLLM settings inp ⟨status, some chunks⟩ =
      Except.error parseFailMsg := by
    intro inp
    simp only [callLocalLLM, responseOk_true status hok, if_true]
    rw [runChunks_flatten, runLines_bad (allLines chunks) "" hbad]
  refine ⟨key input, ?_⟩
  intro txt
  by_cases hsel : selection = ""
  · subst hsel; simp [convertToLatex]
  · simp [convertToLatex, beq_iff_eq, hsel, key selection]

/-- Claim C2 witness: a first valid line followed by `not-json` aborts with
the parse-failure error. -/
theorem c2_fail_fast_witness :
    callLocalLLM DEFAULT_SETTINGS ("seltext")
      ⟨200, some ["\x7b\"response\":\"a\"\x7d\nnot-json\n"]⟩ =
      Except.error parseFailMsg :=
  (c2_fail_fast DEFAULT_SETTINGS ("seltext") ("seltext") 200
    ["\x7b\"response\":\"a\"\x7d\nnot-json\n"] (by decide)
    ⟨"not-json", by decide, rfl⟩).1

/-- Claim C3: sanitization first replaces every backslash with two
backslashes and then every double quote with backslash-quote — equivalently,
it is the character-wise escaping `escAll` — and in particular the input
`a"b\c` is escaped to `a\"b\\c`. -/
theorem c3_sanitization :
    (∀ input : String, sanitizedInput input = String.mk (escAll input.toList))
    ∧ sanitizedInput ("a\"b\\c") = "a\\\"b\\\\c" := by
  constructor
  · intro input
    unfold sanitizedInput
    exact congrArg String.mk (sanitize_escAll input.toList)
  · rfl

/-- Claim C4, counterexample: `String.prototype.replace` interprets `$`
patterns in the replacement string, so for the input `$&` the prompt is the
template itself (with the placeholder re-inserted as the matched text), not
the template with the first placeholder occurrence replaced by the sanitized
input, which would be `A$&B`. -/
theorem c4_counterexample :
    buildPrompt ⟨"llama2", "A\x7binput\x7dB", "5m"⟩ ("$&") = "A\x7binput\x7dB"
    ∧ sanitizedInput ("$&") = "$&"
    ∧ substFirst ("A\x7binput\x7dB") ("\x7binput\x7d") (sanitizedInput ("$&")) = "A$&B"
    ∧ ("A\x7binput\x7dB" : String) ≠ "A$&B" :=
  ⟨rfl, rfl, rfl, by decide⟩

/-- Claim C4 (amended): when the sanitized input contains no `$` character,
prompt substitution replaces exactly the first occurrence of the placeholder
with the sanitized input; and for every template with no placeholder
occurrence the prompt is the template unchanged (for any input). -/
theorem c4_substitution (settings : LatexConverterSettings) (input : String)
    (hnd : '$' ∉ (sanitizedInput input).toList) :
    buildPrompt settings input =
      substFirst settings.llmPrompt ("\x7binput\x7d") (sanitizedInput input)
    ∧ ∀ template : LatexConverterSettings,
        findSplit ("\x7binput\x7d").toList template.llmPrompt.toList = none →
        buildPrompt template input = template.llmPrompt := by
  constructor
  · unfold buildPrompt jsReplaceFirst substFirst
    simp only [getSubstitution_no_dollar _ _ _ _ hnd]
  · intro template hf
    unfold buildPrompt jsReplaceFirst
    rw [hf]

/-- Claim C4 witness: a `$`-free input is substituted literally at the first
placeholder, and a placeholder-free template passes through unchanged. -/
theorem c4_substitution_witness :
    buildPrompt ⟨"llama2", "Say \x7binput\x7d now", "5m"⟩ ("x y") =
      substFirst ("Say \x7binput\x7d now") ("\x7binput\x7d") (sanitizedInput ("x y"))
    ∧ buildPrompt ⟨"llama2", "no placeholder here", "5m"⟩ ("x y") =
      "no placeholder here" :=
  ⟨(c4_substitution ⟨"llama2", "Say \x7binput\x7d now", "5m"⟩ ("x y") (by decide)).1,
   (c4_substitution ⟨"llama2", "no placeholder here", "5m"⟩ ("x y") (by decide)).2
     ⟨"llama2", "no placeholder here", "5m"⟩ (by decide)⟩

/-- Claim C5: each read's decoded text is split on newlines independently
(no residual buffer), so a stream whose full byte sequence is the valid
newline-delimited JSON text of one line, but whose read boundary falls inside
the line, aborts with the parse-failure error, whereas the same bytes
delivered in one read yield the correct accumulation. -/
theorem c5_chunk_boundary :
    callLocalLLM DEFAULT_SETTINGS ("x")
      ⟨200, some ["\x7b\"respon", "se\":\"x\"\x7d\n"]⟩ = Except.error parseFailMsg
    ∧ callLocalLLM DEFAULT_SETTINGS ("x")
        ⟨200, some ["\x7b\"respon" ++ "se\":\"x\"\x7d\n"]⟩ = Except.ok ("x")
    ∧ nonBlankLines ("\x7b\"respon") = ["\x7b\"respon"]
    ∧ nonBlankLines ("se\":\"x\"\x7d\n") = ["se\":\"x\"\x7d"]
    ∧ jsonParse ("\x7b\"respon") = none :=
  ⟨rfl, rfl, rfl, rfl, rfl⟩

/-- Claim C6: a non-2xx HTTP status makes `callLocalLLM` throw an error whose
message includes the numeric status code; the body is never read (the result
is the same for any body), and `replaceSelection` never appears in the
command's effect trace. -/
theorem c6_http_error (settings : LatexConverterSettings) (input selection : String)
    (status : Nat) (b1 b2 : Option (List String))
    (h : ¬(200 ≤ status ∧ status ≤ 299)) :
    callLocalLLM settings input ⟨status, b1⟩ =
      Except.error ("HTTP error! status: " ++ toString status)
    ∧ callLocalLLM settings input ⟨status, b1⟩ = callLocalLLM settings input ⟨status, b2⟩
    ∧ jsIncludes ("HTTP error! status: " ++ toString status) (toString status) = true
    ∧ ∀ txt, Effect.replaceSelection txt ∉ convertToLatex settings selection ⟨status, b1⟩ := by
  have hres := responseOk_false status h
  have key : ∀ (inp : String) (b : Option (List String)),
      callLocalLLM settings inp ⟨status, b⟩ =
        Except.error ("HTTP error! status: " ++ toString status) := by
    intro inp b
    simp [callLocalLLM, hres]
  refine ⟨key input b1, (key input b1).trans (key input b2).symm, ?_, ?_⟩
  · unfold jsIncludes
    rw [strDataAppend]
    exact containsSeq_append_self _ _
  · intro txt
    by_cases hsel : selection = ""
    · subst hsel; simp [convertToLatex]
    · simp [convertToLatex, beq_iff_eq, hsel, key selection b1]

/-- Claim C6 witness: status 500 with any (even missing) body produces the
status-carrying error. -/
theorem c6_http_error_witness :
    callLocalLLM DEFAULT_SETTINGS ("x") ⟨500, none⟩ =
      Except.error ("HTTP error! status: " ++ toString 500) :=
  (c6_http_error DEFAULT_SETTINGS ("x") ("x") 500 none (some []) (by decide)).1

/-- Claim C7: with an empty selection the command's whole effect trace is one
transient notice — in particular it returns without throwing, issues no HTTP
request, and leaves the document unchanged. -/
theorem c7_empty_selection (settings : LatexConverterSettings) (resp : HttpResponse) :
    convertToLatex settings "" resp =
      [Effect.notice ("No text selected. Please select the text you want to convert to LaTeX.") 5000]
    ∧ (∀ req, Effect.httpRequest req ∉ convertToLatex settings "" resp)
    ∧ (∀ txt, Effect.replaceSelection txt ∉ convertToLatex settings "" resp) := by
  refine ⟨rfl, ?_, ?_⟩ <;> intro x <;> simp [convertToLatex]

/-- Claim C8: `handleError` classifies by first matching substring, in order
HTTP-error, parse-failure, unreadable-stream, then the wrapped generic
message for other `Error`s, and the fixed generic message for non-`Error`
values; the connectivity message names `http://localhost:11434`. -/
theorem c8_error_classification :
    (∀ msg, jsIncludes msg ("HTTP error") = true →
      handleError (CaughtValue.jsError msg) =
        "Failed to connect to Ollama. Please ensure Ollama is running and accessible at http://localhost:11434. Error: " ++ msg)
    ∧ (∀ msg, jsIncludes msg ("HTTP error") = false →
        jsIncludes msg ("Failed to parse response") = true →
        handleError (CaughtValue.jsError msg) =
          "Received an invalid response from Ollama. The model might be having issues. Error: " ++ msg)
    ∧ (∀ msg, jsIncludes msg ("HTTP error") = false →
        jsIncludes msg ("Failed to parse response") = false →
        jsIncludes msg ("Unable to read response") = true →
        handleError (CaughtValue.jsError msg) =
          "Failed to read the response from Ollama. The connection might have been interrupted. Error: " ++ msg)
    ∧ (∀ msg, jsIncludes msg ("HTTP error") = false →
        jsIncludes msg ("Failed to parse response") = false →
        jsIncludes msg ("Unable to read response") = false →
        handleError (CaughtValue.jsError msg) = "Error converting to LaTeX: " ++ msg)
    ∧ handleError CaughtValue.nonError =
        "An unexpected error occurred while converting to LaTeX."
    ∧ jsIncludes (handleError (CaughtValue.jsError ("HTTP error! status: 500")))
        ("http://localhost:11434") = true := by
  refine ⟨?_, ?_, ?_, ?_, rfl, by decide⟩ <;> intro msg <;> intros <;>
    simp [handleError, *]

/-- Claim C8 witness: the parse-failure message is classified to the
invalid-response notice. -/
theorem c8_error_classification_witness :
    handleError (CaughtValue.jsError parseFailMsg) =
      "Received an invalid response from Ollama. The model might be having issues. Error: " ++ parseFailMsg :=
  c8_error_classification.2.1 parseFailMsg (by decide) (by decide)

/-- Claim C9: for every non-empty selection the trace starts with the
persistent loading notice and ends with hiding it, on every exit path
(success or failure of the call). -/
theorem c9_notice_cleanup (settings : LatexConverterSettings) (selection : String)
    (resp : HttpResponse) (hsel : selection ≠ "") :
    ∃ mid, convertToLatex settings selection resp =
      Effect.notice ("Converting to LaTeX...") 0 :: mid ++ [Effect.hideNotice] := by
  have hb : (selection == "") = false := beq_eq_false_iff_ne.mpr hsel
  cases hcall : callLocalLLM settings selection resp with
  | ok v =>
    refine ⟨[Effect.httpRequest (buildRequest settings selection),
             Effect.replaceSelection v,
             Effect.notice ("Successfully converted to LaTeX!") 3000], ?_⟩
    simp [convertToLatex, hb, hcall]
  | error e =>
    refine ⟨[Effect.httpRequest (buildRequest settings selection),
             Effect.notice (handleError (CaughtValue.jsError e)) 10000], ?_⟩
    simp [convertToLatex, hb, hcall]

/-- Claim C9 witness: a concrete successful conversion shows the loading
notice first and hides it last. -/
theorem c9_notice_cleanup_witness :
    ∃ mid, convertToLatex DEFAULT_SETTINGS ("x") ⟨200, some []⟩ =
      Effect.notice ("Converting to LaTeX...") 0 :: mid ++ [Effect.hideNotice] :=
  c9_notice_cleanup DEFAULT_SETTINGS ("x") ⟨200, some []⟩ (by decide)

/-- Claim C10, counterexample: the line `5` is valid JSON that does not parse
to an object, yet the operation does not abort — `(5).response` is
`undefined` in JS, not a `TypeError` — so the stream `["5\n"]` succeeds with
the empty accumulation instead of failing with the parse error. -/
theorem c10_counterexample :
    jsonParse ("5") = some (Json.num ⟨false, ['5'], [], false, []⟩)
    ∧ callLocalLLM DEFAULT_SETTINGS ("x") ⟨200, some ["5\n"]⟩ = Except.ok ("")
    ∧ (Except.ok "" : Except String String) ≠ Except.error parseFailMsg :=
  ⟨rfl, rfl, fun hcontra => Except.noConfusion hcontra⟩

/-- Claim C10 (amended): every non-blank line parsing to JSON `null` makes
the per-line handler throw (property access on `null`), aborting with the
very error every malformed-JSON line aborts with; every line parsing to any
other non-object value yields `undefined` for the field access, contributes
nothing and does not fail; and every line parsing to an object whose
`response` field is absent or falsy (for example the empty string)
contributes nothing to the accumulator and does not fail the operation. -/
theorem c10_null_and_falsy :
    (∀ acc line : String, jsonParse line = some Json.null →
      processLine acc line = Except.error parseFailMsg)
    ∧ (∀ acc line : String, jsonParse line = none →
        processLine acc line = Except.error parseFailMsg)
    ∧ (∀ (acc line : String) (v : Json), jsonParse line = some v →
        Json.null ≠ v → (∀ fields, Json.obj fields ≠ v) →
        processLine acc line = Except.ok acc)
    ∧ (∀ (acc line : String) (fields : List (String × Json)),
        jsonParse line = some (Json.obj fields) →
        jsTruthy (lookupLast fields ("response")) = false →
        processLine acc line = Except.ok acc) := by
  refine ⟨?_, ?_, ?_, ?_⟩
  · intro acc line hp
    simp [processLine, hp, jsMember]
  · intro acc line hp
    simp [processLine, hp]
  · intro acc line v hp hnull hobj
    cases v with
    | null => exact absurd rfl hnull
    | obj fields => exact absurd rfl (hobj fields)
    | bool b => simp [processLine, hp, jsMember, jsTruthy]
    | num n => simp [processLine, hp, jsMember, jsTruthy]
    | str s => simp [processLine, hp, jsMember, jsTruthy]
    | arr es => simp [processLine, hp, jsMember, jsTruthy]
  · intro acc line fields hp ht
    simp [processLine, hp, jsMember, ht]

/-- Claim C10 witness: a whitespace-padded `null` line aborts with the
parse-failure error, a numeric line leaves the accumulator unchanged, and a
line whose `response` field is the empty string also leaves it unchanged. -/
theorem c10_null_and_falsy_witness :
    processLine ("z") (" null ") = Except.error parseFailMsg
    ∧ processLine ("z") ("5") = Except.ok ("z")
    ∧ processLine ("z") ("\x7b\"response\":\"\"\x7d") = Except.ok ("z") :=
  ⟨c10_null_and_falsy.1 ("z") (" null ") rfl,
   c10_null_and_falsy.2.2.1 ("z") ("5") (Json.num ⟨false, ['5'], [], false, []⟩)
     rfl (fun h => Json.noConfusion h) (fun _ h => Json.noConfusion h),
   c10_null_and_falsy.2.2.2 ("z") ("\x7b\"response\":\"\"\x7d")
     [("response", Json.str "")] rfl rfl⟩
